import Mathlib

/-!
Verification development for the cppgc heap lifecycle coordinator
(`src/heap/cppgc/heap-base.cc`): the termination fixpoint loop
(`HeapBase::Terminate`), statistics snapshots (`HeapBase::CollectStatistics`),
the remembered-set reset precondition (`HeapBase::ResetRememberedSet`) and the
live object payload size counter (`ObjectSizeCounter` /
`HeapBase::ObjectPayloadSize`).

The coordinator source is embedded directly; the subsystems it drives
(persistent root regions, sweeper, stats collector, object allocator,
pre-finalizer handler) live outside the sampled file and are modelled from the
spec's description of their interfaces, as noted on each definition.
-/

/-- The slot counts of the four persistent root regions
(`strong_persistent_region_`, `weak_persistent_region_`,
`strong_cross_thread_persistent_region_`,
`weak_cross_thread_persistent_region_`). Each component is that region's
`NodesInUse()` count. -/
@[ext]
structure Regions where
  strong : Nat
  weak : Nat
  strongCrossThread : Nat
  weakCrossThread : Nat
deriving DecidableEq, Repr

/-- Modelled from the spec: a region with no slots in use. -/
def Regions.empty : Regions :=
  { strong := 0, weak := 0, strongCrossThread := 0, weakCrossThread := 0 }

/-- Modelled from the spec: registering root slots adds to each region's
count of slots in use (`PersistentRegionBase` is not under src/). -/
def Regions.add (a b : Regions) : Regions :=
  { strong := a.strong + b.strong
    weak := a.weak + b.weak
    strongCrossThread := a.strongCrossThread + b.strongCrossThread
    weakCrossThread := a.weakCrossThread + b.weakCrossThread }

/-- The disjunction `more_termination_gcs_needed` computes in the source:
`strong || weak || (lock; strongCrossThread || weakCrossThread)`, each test
being `NodesInUse()` non-zero. -/
def Regions.nonEmpty (r : Regions) : Bool :=
  (r.strong != 0) || (r.weak != 0) ||
    ((r.strongCrossThread != 0) || (r.weakCrossThread != 0))

/-- The coordinator state visible to the sampled file: the four persistent
root region counts, the marking / atomic-pause / disallow-GC flags
(`IsMarking()`, `in_atomic_pause_`, `disallow_gc_scope_`), the sweeper's
running flag, whether the object allocator was terminated, the linear
allocation buffer size of every normal-page space, the stats collector's
maintained counters, and the young-generation age table / remembered set. -/
structure HeapState where
  regions : Regions
  isMarking : Bool
  inAtomicPause : Bool
  disallowGCScope : Nat
  sweepRunning : Bool
  allocatorTerminated : Bool
  labs : List Nat
  allocatedMemorySize : Nat
  residentMemorySize : Nat
  allocatedObjectSize : Nat
  ageTableIsReset : Bool
  rememberedSetSize : Nat
deriving DecidableEq, Repr

/-- Modelled from the spec: `Sweeper::FinishIfRunning` is a blocking join
that leaves no sweep in flight (the sweeper is not under src/). -/
def Sweeper.finishIfRunning (s : HeapState) : HeapState :=
  { s with sweepRunning := false }

/-- Modelled from the spec: `Sweeper::Start` with `SweepingType::kAtomic`
runs the stop-the-world sweep to completion synchronously, so no sweep is
left running. -/
def Sweeper.start (s : HeapState) : HeapState :=
  { s with sweepRunning := false }

/-- Modelled from the spec:
`ObjectAllocator::ResetLinearAllocationBuffers` flushes every space's LAB
back into per-space accounting, leaving every LAB empty. -/
def ObjectAllocator.resetLinearAllocationBuffers (s : HeapState) : HeapState :=
  { s with labs := s.labs.map (fun _ => 0) }

/-- Modelled from the spec: `ObjectAllocator::Terminate` irreversibly
disables further allocation. -/
def ObjectAllocator.terminate (s : HeapState) : HeapState :=
  { s with allocatorTerminated := true }

/-- Modelled from the spec: an allocation request; the terminated allocator
permanently rejects it. -/
def ObjectAllocator.allocate (s : HeapState) (size : Nat) : Option HeapState :=
  if s.allocatorTerminated then none
  else some { s with allocatedObjectSize := s.allocatedObjectSize + size }

/-- Modelled from the spec: `PreFinalizerHandler::InvokePreFinalizers` runs
the registered callbacks; a callback may register new persistent roots
(resurrection). `prefin k` is the set of roots the callbacks register during
invocation number `k`. -/
def PreFinalizerHandler.invokePreFinalizers (prefin : Nat → Regions) (k : Nat)
    (s : HeapState) : HeapState :=
  { s with regions := s.regions.add (prefin k) }

/-- The observable calls and state transitions of `HeapBase::Terminate`, in
the order the source issues them; used to state the temporal claims. -/
inductive Event where
  | fatalCheck
  | sweeperFinish
  | checkIterationBound
  | clearStrong
  | clearWeak
  | clearStrongCrossThread
  | clearWeakCrossThread
  | enterAtomicPause
  | notifyMarkingStarted
  | resetLABs
  | notifyMarkingCompleted
  | executePreFinalizers
  | sweepStart
  | leaveAtomicPause
  | sweeperNotifyDone
  | allocatorTerminate
  | incrementDisallowGC
deriving DecidableEq, Repr

/-- `HeapBase::ExecutePreFinalizers` (source, lines 109-119): enters a
disallow-GC scope (`DisallowGarbageCollectionScope`), invokes the
pre-finalizers, and leaves the scope on return. -/
def HeapBase.ExecutePreFinalizers (prefin : Nat → Regions) (k : Nat)
    (s : HeapState) : HeapState :=
  let s1 := { s with disallowGCScope := s.disallowGCScope + 1 }
  let s2 := PreFinalizerHandler.invokePreFinalizers prefin k s1
  { s2 with disallowGCScope := s2.disallowGCScope - 1 }

/-- One iteration of the `do`-loop body of `HeapBase::Terminate` (source,
lines 156-188), with the events it emits: `CHECK_LT` on the iteration count,
clear the four root regions (the cross-thread ones under the
`PersistentRegionLock`), enter the atomic pause, `NotifyMarkingStarted`
(major, forced), reset all LABs, `NotifyMarkingCompleted(0)`, run the
pre-finalizers, start the atomic sweep, leave the atomic pause,
`NotifyDoneIfNeeded`. -/
def HeapBase.terminateIteration (prefin : Nat → Regions) (k : Nat)
    (s : HeapState) : HeapState × List Event :=
  let s1 := { s with regions := { s.regions with strong := 0 } }
  let s2 := { s1 with regions := { s1.regions with weak := 0 } }
  let s3 := { s2 with regions := { s2.regions with strongCrossThread := 0 } }
  let s4 := { s3 with regions := { s3.regions with weakCrossThread := 0 } }
  let s5 := { s4 with inAtomicPause := true }
  let s6 := ObjectAllocator.resetLinearAllocationBuffers s5
  let s7 := HeapBase.ExecutePreFinalizers prefin k s6
  let s8 := Sweeper.start s7
  let s9 := { s8 with inAtomicPause := false }
  (s9,
    [Event.checkIterationBound,
     Event.clearStrong, Event.clearWeak,
     Event.clearStrongCrossThread, Event.clearWeakCrossThread,
     Event.enterAtomicPause, Event.notifyMarkingStarted,
     Event.resetLABs, Event.notifyMarkingCompleted,
     Event.executePreFinalizers, Event.sweepStart,
     Event.leaveAtomicPause, Event.sweeperNotifyDone])

/-- The loop condition of the source: some persistent region still reports a
slot in use. -/
def HeapBase.moreTerminationGCsNeeded (s : HeapState) : Bool :=
  s.regions.nonEmpty

/-- `kMaxTerminationGCs` of the source. -/
def HeapBase.kMaxTerminationGCs : Nat := 20

/-- The `do { ... } while (more_termination_gcs_needed)` loop of
`HeapBase::Terminate`. `fuel` is how many more times `CHECK_LT(gc_count++,
kMaxTerminationGCs)` can still pass; exhausting it is the fatal bound
(`none`). On normal exit the result carries the final state, the number of
iterations executed (the final `gc_count`), and the emitted events. -/
def HeapBase.terminateLoop (prefin : Nat → Regions) :
    Nat → Nat → HeapState → Option (HeapState × Nat × List Event)
  | 0, _, _ => none
  | fuel + 1, gcCount, s =>
    let r := HeapBase.terminateIteration prefin gcCount s
    if HeapBase.moreTerminationGCsNeeded r.1 then
      match HeapBase.terminateLoop prefin fuel (gcCount + 1) r.1 with
      | none => none
      | some x => some (x.1, x.2.1, r.2 ++ x.2.2)
    else
      some (r.1, gcCount + 1, r.2)

/-- `HeapBase::Terminate` (source, lines 147-197). `none` is a fatal process
abort: the entry `DCHECK(!IsMarking())` / `CHECK(!in_disallow_gc_scope())`,
the iteration bound, or a trailing `CHECK_EQ(0u, ...NodesInUse())`. On
normal return the result carries the final heap state, the iteration count
and the event trace. -/
def HeapBase.Terminate (prefin : Nat → Regions) (s : HeapState) :
    Option (HeapState × Nat × List Event) :=
  if s.isMarking = true then none
  else if 0 < s.disallowGCScope then none
  else
    let s0 := Sweeper.finishIfRunning s
    match HeapBase.terminateLoop prefin HeapBase.kMaxTerminationGCs 0 s0 with
    | none => none
    | some x =>
      let s1 := ObjectAllocator.terminate x.1
      let s2 := { s1 with disallowGCScope := s1.disallowGCScope + 1 }
      if (s2.regions.strong == 0 && s2.regions.weak == 0 &&
          s2.regions.strongCrossThread == 0 && s2.regions.weakCrossThread == 0) then
        some (s2, x.2.1,
          Event.fatalCheck :: Event.sweeperFinish ::
            (x.2.2 ++ [Event.allocatorTerminate, Event.incrementDisallowGC]))
      else none

/-- `HeapStatistics::DetailLevel` of the public heap statistics interface. -/
inductive DetailLevel where
  | kBrief
  | kDetailed
deriving DecidableEq, Repr

/-- Modelled from the spec: the public `HeapStatistics` record the snapshot
returns (its declaration is not under src/): the three byte counters the
brief initializer fills, the detail level, and the per-space breakdown
(empty for a brief snapshot). -/
structure HeapStatistics where
  committedSizeBytes : Nat
  residentSizeBytes : Nat
  usedSizeBytes : Nat
  detailLevel : DetailLevel
  spaceStats : List Nat
  typeNames : List Nat
deriving DecidableEq, Repr

/-- The observable calls of `HeapBase::CollectStatistics`. -/
inductive StatEvent where
  | sweeperFinish
  | resetLABs
  | collectDetailed
deriving DecidableEq, Repr

/-- Modelled from the spec: the external statistics aggregator's full-detail
entry point (`HeapStatisticsCollector::CollectDetailedStatistics`, not under
src/): a full per-space breakdown computed from the heap it is handed. -/
def HeapStatisticsCollector.collectDetailedStatistics (s : HeapState) :
    HeapStatistics :=
  { committedSizeBytes := s.allocatedMemorySize
    residentSizeBytes := s.residentMemorySize
    usedSizeBytes := s.allocatedObjectSize
    detailLevel := DetailLevel.kDetailed
    spaceStats := s.labs
    typeNames := [] }

/-- `HeapBase::CollectStatistics` (source, lines 199-213). Brief: a braced
initializer reading the stats collector's maintained counters, touching
nothing. Detailed: `FinishIfRunning`, then `ResetLinearAllocationBuffers`,
then delegate to the aggregator. Returns the snapshot, the heap state after
the call and the calls made. -/
def HeapBase.CollectStatistics (detailLevel : DetailLevel) (s : HeapState) :
    HeapStatistics × HeapState × List StatEvent :=
  if detailLevel = DetailLevel.kBrief then
    ({ committedSizeBytes := s.allocatedMemorySize
       residentSizeBytes := s.residentMemorySize
       usedSizeBytes := s.allocatedObjectSize
       detailLevel := DetailLevel.kBrief
       spaceStats := []
       typeNames := [] }, s, [])
  else
    let s1 := Sweeper.finishIfRunning s
    let s2 := ObjectAllocator.resetLinearAllocationBuffers s1
    (HeapStatisticsCollector.collectDetailedStatistics s2, s2,
      [StatEvent.sweeperFinish, StatEvent.resetLABs, StatEvent.collectDetailed])

/-- The `AllLABsAreEmpty` visitor of `HeapBase::ResetRememberedSet` (source,
lines 123-140): traverses every normal-page space, OR-ing into
`some_lab_is_set_` whether that space's linear allocation buffer has
non-zero size. -/
def HeapBase.someLabIsSet (s : HeapState) : Bool :=
  s.labs.foldl (fun acc lab => acc || (lab != 0)) false

/-- `AllLABsAreEmpty::value()` of the source: the negation of the
accumulated OR. -/
def HeapBase.allLABsAreEmptyValue (s : HeapState) : Bool :=
  !(HeapBase.someLabIsSet s)

/-- `HeapBase::ResetRememberedSet` (source, lines 121-145, generational
configuration): `DCHECK(AllLABsAreEmpty(raw_heap()).value())` — fatal
(`none`) when some LAB is non-empty — then resets the age table and clears
the remembered set. -/
def HeapBase.ResetRememberedSet (s : HeapState) : Option HeapState :=
  if HeapBase.allLABsAreEmptyValue s then
    some { s with ageTableIsReset := true, rememberedSetSize := 0 }
  else none

/-- An object header as the size counter sees it: whether it is marked free,
and the object size `ObjectView<>(header).Size()` reads off it (the header
and view types are not under src/; the size is modelled from the spec as the
header's recorded object size). -/
structure HeapObjectHeader where
  isFree : Bool
  size : Nat
deriving DecidableEq, Repr

/-- A page, as the traversal sees it: its object headers in order. -/
abbrev HeapPage := List HeapObjectHeader

/-- A space: its pages. -/
abbrev HeapSpace := List HeapPage

/-- The raw heap: every space, normal and custom. -/
abbrev RawHeap := List HeapSpace

/-- `ObjectSizeCounter::ObjectSize` (source, line 38):
`ObjectView<>(header).Size()`. -/
def ObjectSizeCounter.ObjectSize (h : HeapObjectHeader) : Nat := h.size

/-- `ObjectSizeCounter::VisitHeapObjectHeader` (source, lines 42-46): a free
header contributes nothing; otherwise the object size is accumulated. -/
def ObjectSizeCounter.visitHeapObjectHeader (acc : Nat)
    (h : HeapObjectHeader) : Nat :=
  if h.isFree then acc else acc + ObjectSizeCounter.ObjectSize h

/-- `ObjectSizeCounter::GetSize` (source, lines 32-35). Modelled from the
spec: the `HeapVisitor` traversal (not under src/) visits every object
header of every page of every space, threading `accumulated_size_`, which
starts at 0. -/
def ObjectSizeCounter.GetSize (heap : RawHeap) : Nat :=
  heap.foldl
    (fun acc space =>
      space.foldl
        (fun acc2 page => page.foldl ObjectSizeCounter.visitHeapObjectHeader acc2)
        acc)
    0

/-- `HeapBase::ObjectPayloadSize` (source, lines 105-107):
`ObjectSizeCounter().GetSize(raw_heap())`. -/
def HeapBase.ObjectPayloadSize (heap : RawHeap) : Nat :=
  ObjectSizeCounter.GetSize heap

/-- A pre-finalizer behaviour that never registers a root. -/
def prefinNone : Nat → Regions := fun _ => Regions.empty

/-- The resurrection scenario of the spec: the pre-finalizers register
exactly one (strong) root on each of their first two invocations and none
afterwards. -/
def prefinResurrect : Nat → Regions := fun k =>
  if k < 2 then
    { strong := 1, weak := 0, strongCrossThread := 0, weakCrossThread := 0 }
  else Regions.empty

/-- A pre-finalizer behaviour that resurrects a root on every invocation:
resurrection never stops. -/
def prefinAlways : Nat → Regions := fun _ =>
  { strong := 0, weak := 1, strongCrossThread := 0, weakCrossThread := 0 }

/-- A concrete pre-termination heap state: some persistent roots registered,
a sweep in flight, some LABs open. -/
def sW : HeapState :=
  { regions := { strong := 2, weak := 1, strongCrossThread := 0, weakCrossThread := 3 }
    isMarking := false
    inAtomicPause := false
    disallowGCScope := 0
    sweepRunning := true
    allocatorTerminated := false
    labs := [5, 0, 7]
    allocatedMemorySize := 100
    residentMemorySize := 120
    allocatedObjectSize := 40
    ageTableIsReset := false
    rememberedSetSize := 2 }

/-- The value of `HeapBase.Terminate prefinNone sW`: final state, iteration
count and event trace of that concrete run. -/
def outW : HeapState × Nat × List Event :=
  ({ regions := { strong := 0, weak := 0, strongCrossThread := 0, weakCrossThread := 0 }
     isMarking := false
     inAtomicPause := false
     disallowGCScope := 1
     sweepRunning := false
     allocatorTerminated := true
     labs := [0, 0, 0]
     allocatedMemorySize := 100
     residentMemorySize := 120
     allocatedObjectSize := 40
     ageTableIsReset := false
     rememberedSetSize := 2 },
   1,
   [Event.fatalCheck, Event.sweeperFinish, Event.checkIterationBound,
    Event.clearStrong, Event.clearWeak, Event.clearStrongCrossThread,
    Event.clearWeakCrossThread, Event.enterAtomicPause,
    Event.notifyMarkingStarted, Event.resetLABs, Event.notifyMarkingCompleted,
    Event.executePreFinalizers, Event.sweepStart, Event.leaveAtomicPause,
    Event.sweeperNotifyDone, Event.allocatorTerminate, Event.incrementDisallowGC])

/-- The claim that the fatal marking / disallow-GC check is performed in
every iteration of the termination loop: every successful run would then
carry one `fatalCheck` event per iteration. -/
def fatalCheckEachIteration : Prop :=
  ∀ (prefin : Nat → Regions) (s : HeapState) (out : HeapState × Nat × List Event),
    HeapBase.Terminate prefin s = some out →
    out.2.2.count Event.fatalCheck = out.2.1

theorem regions_empty_add (p : Regions) : Regions.add Regions.empty p = p := by
  cases p
  simp [Regions.add, Regions.empty]

theorem terminateIteration_regions (prefin : Nat → Regions) (k : Nat)
    (s : HeapState) :
    (HeapBase.terminateIteration prefin k s).1.regions = prefin k := by
  simp [HeapBase.terminateIteration, HeapBase.ExecutePreFinalizers,
    PreFinalizerHandler.invokePreFinalizers, Sweeper.start,
    ObjectAllocator.resetLinearAllocationBuffers]
  cases hp : prefin k
  simp [Regions.add]

theorem terminateIteration_preserves (prefin : Nat → Regions) (k : Nat)
    (s : HeapState) :
    (HeapBase.terminateIteration prefin k s).1.disallowGCScope = s.disallowGCScope ∧
    (HeapBase.terminateIteration prefin k s).1.isMarking = s.isMarking ∧
    (HeapBase.terminateIteration prefin k s).1.allocatorTerminated = s.allocatorTerminated := by
  simp [HeapBase.terminateIteration, HeapBase.ExecutePreFinalizers,
    PreFinalizerHandler.invokePreFinalizers, Sweeper.start,
    ObjectAllocator.resetLinearAllocationBuffers]

theorem terminateIteration_trace (prefin : Nat → Regions) (k : Nat)
    (s : HeapState) :
    (HeapBase.terminateIteration prefin k s).2 =
      [Event.checkIterationBound,
       Event.clearStrong, Event.clearWeak,
       Event.clearStrongCrossThread, Event.clearWeakCrossThread,
       Event.enterAtomicPause, Event.notifyMarkingStarted,
       Event.resetLABs, Event.notifyMarkingCompleted,
       Event.executePreFinalizers, Event.sweepStart,
       Event.leaveAtomicPause, Event.sweeperNotifyDone] := rfl

theorem moreNeeded_iteration (prefin : Nat → Regions) (k : Nat) (s : HeapState) :
    HeapBase.moreTerminationGCsNeeded (HeapBase.terminateIteration prefin k s).1 =
      (prefin k).nonEmpty := by
  rw [HeapBase.moreTerminationGCsNeeded, terminateIteration_regions]

theorem terminateLoop_succ_of_more {prefin : Nat → Regions} {g : Nat}
    {s : HeapState} (fuel : Nat) (h : (prefin g).nonEmpty = true) :
    HeapBase.terminateLoop prefin (fuel + 1) g s =
      (match HeapBase.terminateLoop prefin fuel (g + 1)
          (HeapBase.terminateIteration prefin g s).1 with
       | none => none
       | some x => some (x.1, x.2.1, (HeapBase.terminateIteration prefin g s).2 ++ x.2.2)) := by
  have hm : HeapBase.moreTerminationGCsNeeded (HeapBase.terminateIteration prefin g s).1 = true := by
    rw [moreNeeded_iteration]; exact h
  simp only [HeapBase.terminateLoop, hm, if_true]

theorem terminateLoop_succ_of_done {prefin : Nat → Regions} {g : Nat}
    {s : HeapState} (fuel : Nat) (h : (prefin g).nonEmpty = false) :
    HeapBase.terminateLoop prefin (fuel + 1) g s =
      some ((HeapBase.terminateIteration prefin g s).1, g + 1,
        (HeapBase.terminateIteration prefin g s).2) := by
  have hm : HeapBase.moreTerminationGCsNeeded (HeapBase.terminateIteration prefin g s).1 = false := by
    rw [moreNeeded_iteration]; exact h
  simp only [HeapBase.terminateLoop, hm, Bool.false_eq_true, if_false]

theorem terminateLoop_count_le (prefin : Nat → Regions) :
    ∀ (fuel g : Nat) (s : HeapState) (out : HeapState × Nat × List Event),
      HeapBase.terminateLoop prefin fuel g s = some out → out.2.1 ≤ g + fuel := by
  intro fuel
  induction fuel with
  | zero => intro g s out h; simp [HeapBase.terminateLoop] at h
  | succ fuel ih =>
    intro g s out h
    simp only [HeapBase.terminateLoop] at h
    split at h
    · cases hr : HeapBase.terminateLoop prefin fuel (g + 1)
        (HeapBase.terminateIteration prefin g s).1 with
      | none => rw [hr] at h; simp at h
      | some x =>
        rw [hr] at h
        simp only [Option.some.injEq] at h
        have := ih (g + 1) _ _ hr
        subst h
        simpa using by omega
    · simp only [Option.some.injEq] at h
      subst h
      dsimp only
      omega

theorem terminateLoop_preserves (prefin : Nat → Regions) :
    ∀ (fuel g : Nat) (s : HeapState) (out : HeapState × Nat × List Event),
      HeapBase.terminateLoop prefin fuel g s = some out →
      out.1.disallowGCScope = s.disallowGCScope ∧
      out.1.isMarking = s.isMarking ∧
      out.1.allocatorTerminated = s.allocatorTerminated := by
  intro fuel
  induction fuel with
  | zero => intro g s out h; simp [HeapBase.terminateLoop] at h
  | succ fuel ih =>
    intro g s out h
    simp only [HeapBase.terminateLoop] at h
    split at h
    · cases hr : HeapBase.terminateLoop prefin fuel (g + 1)
        (HeapBase.terminateIteration prefin g s).1 with
      | none => rw [hr] at h; simp at h
      | some x =>
        rw [hr] at h
        simp only [Option.some.injEq] at h
        have hx := ih (g + 1) _ _ hr
        have hi := terminateIteration_preserves prefin g s
        subst h
        exact ⟨by rw [hx.1, hi.1], by rw [hx.2.1, hi.2.1], by rw [hx.2.2, hi.2.2]⟩
    · simp only [Option.some.injEq] at h
      subst h
      exact terminateIteration_preserves prefin g s

theorem terminateLoop_count_fatal (prefin : Nat → Regions) :
    ∀ (fuel g : Nat) (s : HeapState) (out : HeapState × Nat × List Event),
      HeapBase.terminateLoop prefin fuel g s = some out →
      out.2.2.count Event.fatalCheck = 0 := by
  intro fuel
  induction fuel with
  | zero => intro g s out h; simp [HeapBase.terminateLoop] at h
  | succ fuel ih =>
    intro g s out h
    simp only [HeapBase.terminateLoop] at h
    split at h
    · cases hr : HeapBase.terminateLoop prefin fuel (g + 1)
        (HeapBase.terminateIteration prefin g s).1 with
      | none => rw [hr] at h; simp at h
      | some x =>
        rw [hr] at h
        simp only [Option.some.injEq] at h
        have hx := ih (g + 1) _ _ hr
        subst h
        simp only [List.count_append, terminateIteration_trace]
        rw [hx]
        decide
    · simp only [Option.some.injEq] at h
      subst h
      rw [terminateIteration_trace]
      decide

theorem terminateLoop_none_of_nonEmpty (prefin : Nat → Regions) :
    ∀ (fuel g : Nat) (s : HeapState),
      (∀ k, g ≤ k → k < g + fuel → (prefin k).nonEmpty = true) →
      HeapBase.terminateLoop prefin fuel g s = none := by
  intro fuel
  induction fuel with
  | zero => intro g s _; rfl
  | succ fuel ih =>
    intro g s H
    rw [terminateLoop_succ_of_more fuel (H g (Nat.le_refl g) (by omega))]
    rw [ih (g + 1) _ (fun k hk1 hk2 => H k (by omega) (by omega))]

theorem terminateLoop_reaches (prefin : Nat → Regions) :
    ∀ (j fuel g : Nat) (s : HeapState),
      j < fuel →
      (prefin (g + j)).nonEmpty = false →
      (∀ i, i < j → (prefin (g + i)).nonEmpty = true) →
      ∃ sE tr, HeapBase.terminateLoop prefin fuel g s = some (sE, g + j + 1, tr) ∧
        sE.regions = prefin (g + j) := by
  intro j
  induction j with
  | zero =>
    intro fuel g s hj hstop _
    cases fuel with
    | zero => omega
    | succ fuel =>
      refine ⟨(HeapBase.terminateIteration prefin g s).1,
        (HeapBase.terminateIteration prefin g s).2, ?_, ?_⟩
      · rw [terminateLoop_succ_of_done fuel (by simpa using hstop)]
      · rw [terminateIteration_regions]
        norm_num
  | succ j ih =>
    intro fuel g s hj hstop hgo
    cases fuel with
    | zero => omega
    | succ fuel =>
      have hstep : (prefin g).nonEmpty = true := by
        have := hgo 0 (by omega)
        simpa using this
      have hstop' : (prefin (g + 1 + j)).nonEmpty = false := by
        have : g + 1 + j = g + (j + 1) := by omega
        rw [this]; exact hstop
      have hgo' : ∀ i, i < j → (prefin (g + 1 + i)).nonEmpty = true := by
        intro i hi
        have : g + 1 + i = g + (i + 1) := by omega
        rw [this]; exact hgo (i + 1) (by omega)
      obtain ⟨sE, tr, hloop, hreg⟩ :=
        ih fuel (g + 1) (HeapBase.terminateIteration prefin g s).1 (by omega) hstop' hgo'
      refine ⟨sE, (HeapBase.terminateIteration prefin g s).2 ++ tr, ?_, ?_⟩
      · rw [terminateLoop_succ_of_more fuel hstep, hloop]
        have : g + 1 + j + 1 = g + (j + 1) + 1 := by omega
        rw [this]
      · rw [hreg]
        have : g + 1 + j = g + (j + 1) := by omega
        rw [this]

/-- C1: for every sequence of persistent-root registrations (any starting
state) followed by a call to `Terminate()` that returns normally, all four
persistent root regions report zero slots in use immediately after
`Terminate()` returns. -/
theorem terminate_clears_all_persistent_regions (prefin : Nat → Regions)
    (s : HeapState) (out : HeapState × Nat × List Event)
    (h : HeapBase.Terminate prefin s = some out) :
    out.1.regions.strong = 0 ∧ out.1.regions.weak = 0 ∧
    out.1.regions.strongCrossThread = 0 ∧ out.1.regions.weakCrossThread = 0 := by
  simp only [HeapBase.Terminate] at h
  split at h
  · exact absurd h (by simp)
  split at h
  · exact absurd h (by simp)
  split at h
  · exact absurd h (by simp)
  next x heq =>
    dsimp only [ObjectAllocator.terminate] at h
    split at h
    next hcond =>
      simp only [Bool.and_eq_true, beq_iff_eq] at hcond
      simp only [Option.some.injEq] at h
      subst h
      exact ⟨hcond.1.1.1, hcond.1.1.2, hcond.1.2, hcond.2⟩
    next hcond => exact absurd h (by simp)

/-- C1 witness: the concrete run `Terminate prefinNone sW` returns normally
with all four regions empty. -/
theorem terminate_clears_all_persistent_regions_witness :
    outW.1.regions.strong = 0 ∧ outW.1.regions.weak = 0 ∧
    outW.1.regions.strongCrossThread = 0 ∧ outW.1.regions.weakCrossThread = 0 :=
  terminate_clears_all_persistent_regions prefinNone sW outW (by decide)

/-- C2: the termination fixpoint loop executes at most `kMaxTerminationGCs`
= 20 iterations, and when some persistent region is still non-empty after
every one of the first 20 iterations (roots keep being resurrected),
`Terminate()` fatally aborts instead of iterating further. -/
theorem terminate_iteration_bound (prefin : Nat → Regions) (s : HeapState) :
    (∀ out : HeapState × Nat × List Event,
      HeapBase.Terminate prefin s = some out →
      out.2.1 ≤ HeapBase.kMaxTerminationGCs) ∧
    ((∀ k, k < HeapBase.kMaxTerminationGCs → (prefin k).nonEmpty = true) →
      HeapBase.Terminate prefin s = none) := by
  constructor
  · intro out h
    simp only [HeapBase.Terminate] at h
    split at h
    · exact absurd h (by simp)
    split at h
    · exact absurd h (by simp)
    split at h
    · exact absurd h (by simp)
    next x heq =>
      dsimp only [ObjectAllocator.terminate] at h
      split at h
      next hcond =>
        simp only [Option.some.injEq] at h
        subst h
        have := terminateLoop_count_le prefin HeapBase.kMaxTerminationGCs 0
          (Sweeper.finishIfRunning s) x heq
        dsimp only
        omega
      next hcond => exact absurd h (by simp)
  · intro H
    simp only [HeapBase.Terminate]
    split
    · rfl
    split
    · rfl
    rw [terminateLoop_none_of_nonEmpty prefin HeapBase.kMaxTerminationGCs 0
      (Sweeper.finishIfRunning s) (fun k _ hk2 => H k (by omega))]

/-- C2 witness: with a pre-finalizer that resurrects a root on every
invocation, `Terminate()` on the concrete state `sW` aborts. -/
theorem terminate_iteration_bound_witness :
    HeapBase.Terminate prefinAlways sW = none :=
  (terminate_iteration_bound prefinAlways sW).2 (by decide)

/-- C3 counterexample: the fatal marking / disallow-GC check is NOT
performed in each iteration of the termination loop: the concrete run
`Terminate prefinResurrect sW` makes 3 iterations but its trace carries a
single `fatalCheck` event, so the one-check-per-iteration property fails. -/
theorem terminate_fatal_check_not_each_iteration : ¬ fatalCheckEachIteration := by
  intro hcl
  have e1 : (HeapBase.Terminate prefinResurrect sW).map (fun o => o.2.1) = some 3 := by
    decide
  have e2 : (HeapBase.Terminate prefinResurrect sW).map
      (fun o => o.2.2.count Event.fatalCheck) = some 1 := by
    decide
  cases hout : HeapBase.Terminate prefinResurrect sW with
  | none => rw [hout] at e1; exact absurd e1 (by simp)
  | some out =>
    rw [hout] at e1 e2
    simp only [Option.map_some', Option.some.injEq] at e1 e2
    have := hcl prefinResurrect sW out hout
    rw [e1, e2] at this
    exact absurd this (by decide)

/-- C3 (amended): `Terminate()` fatally aborts when invoked while marking is
in progress or a disallow-GC scope is active, and this fatal check is
performed exactly once, at entry, before the loop — so before any roots are
cleared — not once per iteration: every normal return's trace starts with the
single `fatalCheck` event, followed by the sweeper join, and no later
`fatalCheck` occurs. -/
theorem terminate_fatal_check_once_at_entry (prefin : Nat → Regions) (s : HeapState) :
    (s.isMarking = true → HeapBase.Terminate prefin s = none) ∧
    (0 < s.disallowGCScope → HeapBase.Terminate prefin s = none) ∧
    (∀ out : HeapState × Nat × List Event,
      HeapBase.Terminate prefin s = some out →
      ∃ rest, out.2.2 = Event.fatalCheck :: Event.sweeperFinish :: rest ∧
        rest.count Event.fatalCheck = 0) := by
  refine ⟨?_, ?_, ?_⟩
  · intro hm
    simp [HeapBase.Terminate, hm]
  · intro hd
    simp [HeapBase.Terminate, hd]
  · intro out h
    simp only [HeapBase.Terminate] at h
    split at h
    · exact absurd h (by simp)
    split at h
    · exact absurd h (by simp)
    split at h
    · exact absurd h (by simp)
    next x heq =>
      dsimp only [ObjectAllocator.terminate] at h
      split at h
      next hcond =>
        simp only [Option.some.injEq] at h
        subst h
        refine ⟨x.2.2 ++ [Event.allocatorTerminate, Event.incrementDisallowGC], rfl, ?_⟩
        rw [List.count_append,
          terminateLoop_count_fatal prefin HeapBase.kMaxTerminationGCs 0
            (Sweeper.finishIfRunning s) x heq]
        decide
      next hcond => exact absurd h (by simp)

/-- C4: if the pre-finalizers resurrect exactly one persistent root during
each of the first two termination iterations and none during the third
(`prefinResurrect`), `Terminate()` exits its loop after exactly 3 iterations
and returns normally, from any valid starting state. -/
theorem terminate_three_iterations_on_double_resurrection (s : HeapState)
    (hm : s.isMarking = false) (hd : s.disallowGCScope = 0) :
    (HeapBase.Terminate prefinResurrect s).map (fun out => out.2.1) = some 3 := by
  obtain ⟨sE, tr, hloop, hreg⟩ :=
    terminateLoop_reaches prefinResurrect 2 HeapBase.kMaxTerminationGCs 0
      (Sweeper.finishIfRunning s) (by decide) (by decide) (by decide)
  simp only [HeapBase.Terminate, hm, hd]
  rw [hloop]
  dsimp only [ObjectAllocator.terminate]
  rw [hreg]
  norm_num [prefinResurrect, Regions.empty]

/-- C4 witness: the 3-iteration run on the concrete state `sW`. -/
theorem terminate_three_iterations_witness :
    (HeapBase.Terminate prefinResurrect sW).map (fun out => out.2.1) = some 3 :=
  terminate_three_iterations_on_double_resurrection sW rfl rfl

/-- C5: within each iteration of `Terminate()`, the clearing of all four
persistent root regions precedes notify-marking-started, the LAB reset
precedes notify-marking-completed, and pre-finalizer execution is strictly
after notify-marking-completed and strictly before the atomic sweep start. -/
theorem terminate_iteration_step_order (prefin : Nat → Regions) (k : Nat)
    (s : HeapState) :
    ((HeapBase.terminateIteration prefin k s).2.indexOf Event.clearStrong <
      (HeapBase.terminateIteration prefin k s).2.indexOf Event.notifyMarkingStarted) ∧
    ((HeapBase.terminateIteration prefin k s).2.indexOf Event.clearWeak <
      (HeapBase.terminateIteration prefin k s).2.indexOf Event.notifyMarkingStarted) ∧
    ((HeapBase.terminateIteration prefin k s).2.indexOf Event.clearStrongCrossThread <
      (HeapBase.terminateIteration prefin k s).2.indexOf Event.notifyMarkingStarted) ∧
    ((HeapBase.terminateIteration prefin k s).2.indexOf Event.clearWeakCrossThread <
      (HeapBase.terminateIteration prefin k s).2.indexOf Event.notifyMarkingStarted) ∧
    ((HeapBase.terminateIteration prefin k s).2.indexOf Event.resetLABs <
      (HeapBase.terminateIteration prefin k s).2.indexOf Event.notifyMarkingCompleted) ∧
    ((HeapBase.terminateIteration prefin k s).2.indexOf Event.notifyMarkingCompleted <
      (HeapBase.terminateIteration prefin k s).2.indexOf Event.executePreFinalizers) ∧
    ((HeapBase.terminateIteration prefin k s).2.indexOf Event.executePreFinalizers <
      (HeapBase.terminateIteration prefin k s).2.indexOf Event.sweepStart) := by
  rw [terminateIteration_trace]
  decide

/-- C6: a normal return of `Terminate()` leaves the heap in a terminal
state: the object allocator is terminated and permanently rejects
allocation, the disallow-GC depth is the caller's depth plus one, and a
second call to `Terminate()` (with any pre-finalizer behaviour) is fatal. -/
theorem terminate_terminal_state (prefin : Nat → Regions) (s : HeapState)
    (out : HeapState × Nat × List Event)
    (h : HeapBase.Terminate prefin s = some out) :
    out.1.allocatorTerminated = true ∧
    out.1.disallowGCScope = s.disallowGCScope + 1 ∧
    (∀ size, ObjectAllocator.allocate out.1 size = none) ∧
    (∀ prefin2, HeapBase.Terminate prefin2 out.1 = none) := by
  simp only [HeapBase.Terminate] at h
  split at h
  · exact absurd h (by simp)
  next hMarkNe =>
    split at h
    · exact absurd h (by simp)
    next hDisNe =>
      split at h
      · exact absurd h (by simp)
      next x heq =>
        dsimp only [ObjectAllocator.terminate] at h
        split at h
        next hcond =>
          simp only [Option.some.injEq] at h
          have hpres := terminateLoop_preserves prefin HeapBase.kMaxTerminationGCs 0
            (Sweeper.finishIfRunning s) x heq
          have hMark : s.isMarking = false := by
            revert hMarkNe
            cases s.isMarking <;> simp
          subst h
          have hx1 : x.1.disallowGCScope = s.disallowGCScope := by
            rw [hpres.1]; rfl
          have hx2 : x.1.isMarking = false := by
            rw [hpres.2.1]
            exact hMark
          refine ⟨rfl, by dsimp only; rw [hx1], ?_, ?_⟩
          · intro size
            simp [ObjectAllocator.allocate]
          · intro prefin2
            simp [HeapBase.Terminate, hx2]
        next hcond => exact absurd h (by simp)

/-- C6 witness: the terminal state of the concrete run
`Terminate prefinNone sW`. -/
theorem terminate_terminal_state_witness :
    outW.1.allocatorTerminated = true ∧
    outW.1.disallowGCScope = sW.disallowGCScope + 1 ∧
    (∀ size, ObjectAllocator.allocate outW.1 size = none) ∧
    (∀ prefin2, HeapBase.Terminate prefin2 outW.1 = none) :=
  terminate_terminal_state prefinNone sW outW (by decide)

/-- C7: `CollectStatistics(detailed)` performs its steps in mandatory order
— the sweeper join strictly before the LAB flush, the LAB flush strictly
before the delegation to the statistics aggregator — and the state handed to
the aggregator has no sweep in flight and every LAB empty. -/
theorem collect_statistics_detailed_order (s : HeapState) :
    ((HeapBase.CollectStatistics DetailLevel.kDetailed s).2.2.indexOf
        StatEvent.sweeperFinish <
      (HeapBase.CollectStatistics DetailLevel.kDetailed s).2.2.indexOf
        StatEvent.resetLABs) ∧
    ((HeapBase.CollectStatistics DetailLevel.kDetailed s).2.2.indexOf
        StatEvent.resetLABs <
      (HeapBase.CollectStatistics DetailLevel.kDetailed s).2.2.indexOf
        StatEvent.collectDetailed) ∧
    (HeapBase.CollectStatistics DetailLevel.kDetailed s).2.1.sweepRunning = false ∧
    (∀ lab ∈ (HeapBase.CollectStatistics DetailLevel.kDetailed s).2.1.labs,
      lab = 0) := by
  have htr : (HeapBase.CollectStatistics DetailLevel.kDetailed s).2.2 =
      [StatEvent.sweeperFinish, StatEvent.resetLABs, StatEvent.collectDetailed] := by
    simp [HeapBase.CollectStatistics]
  refine ⟨by rw [htr]; decide, by rw [htr]; decide, rfl, ?_⟩
  intro lab hmem
  simp only [HeapBase.CollectStatistics, ObjectAllocator.resetLinearAllocationBuffers,
    Sweeper.finishIfRunning] at hmem
  simp at hmem
  exact hmem.2

/-- C8: `CollectStatistics(brief)` is a pure read of the maintained
counters: it leaves the heap state unchanged, makes no sweeper-join or
LAB-flush call, and a second brief snapshot with no intervening mutation
returns the identical counters. -/
theorem collect_statistics_brief_pure (s : HeapState) :
    (HeapBase.CollectStatistics DetailLevel.kBrief s).2.1 = s ∧
    (HeapBase.CollectStatistics DetailLevel.kBrief s).2.2 = [] ∧
    (HeapBase.CollectStatistics DetailLevel.kBrief
        ((HeapBase.CollectStatistics DetailLevel.kBrief s).2.1)).1 =
      (HeapBase.CollectStatistics DetailLevel.kBrief s).1 := by
  simp [HeapBase.CollectStatistics]

theorem foldl_or_any (l : List Nat) (b : Bool) :
    l.foldl (fun acc lab => acc || (lab != 0)) b =
      (b || l.any (fun lab => lab != 0)) := by
  induction l generalizing b with
  | nil => simp
  | cons x t ih => simp [List.foldl, ih, Bool.or_assoc]

/-- C9: `ResetRememberedSet()` requires, via the OR-ing traversal over every
normal-page space's LAB, that no LAB is non-empty: with any non-empty LAB
the precondition fails fatally, and with all LABs empty it resets the age
table and clears the remembered set. -/
theorem reset_remembered_set_requires_empty_labs (s : HeapState) :
    ((∃ lab ∈ s.labs, lab ≠ 0) → HeapBase.ResetRememberedSet s = none) ∧
    ((∀ lab ∈ s.labs, lab = 0) →
      HeapBase.ResetRememberedSet s =
        some { s with ageTableIsReset := true, rememberedSetSize := 0 }) := by
  have hfold : HeapBase.someLabIsSet s = s.labs.any (fun lab => lab != 0) := by
    rw [HeapBase.someLabIsSet, foldl_or_any]
    simp
  constructor
  · rintro ⟨lab, hmem, hne⟩
    have hset : HeapBase.someLabIsSet s = true := by
      rw [hfold]
      exact List.any_eq_true.mpr ⟨lab, hmem, by simpa using hne⟩
    simp [HeapBase.ResetRememberedSet, HeapBase.allLABsAreEmptyValue, hset]
  · intro hall
    have hset : HeapBase.someLabIsSet s = false := by
      rw [hfold]
      simp only [List.any_eq_false]
      intro lab hmem
      simpa using hall lab hmem
    simp [HeapBase.ResetRememberedSet, HeapBase.allLABsAreEmptyValue, hset]

/-- C9 witness: on `sW` (a LAB of size 5 is open) the reset aborts; with all
LABs empty it succeeds and leaves the age table reset. -/
theorem reset_remembered_set_witness :
    HeapBase.ResetRememberedSet sW = none ∧
    HeapBase.ResetRememberedSet { sW with labs := [0, 0] } =
      some { sW with labs := [0, 0], ageTableIsReset := true, rememberedSetSize := 0 } :=
  ⟨(reset_remembered_set_requires_empty_labs sW).1 ⟨5, by decide, by decide⟩,
   (reset_remembered_set_requires_empty_labs { sW with labs := [0, 0] }).2 (by decide)⟩

theorem foldl_visit_page (p : HeapPage) (acc : Nat) :
    p.foldl ObjectSizeCounter.visitHeapObjectHeader acc =
      acc + ((p.filter (fun h => !h.isFree)).map ObjectSizeCounter.ObjectSize).sum := by
  induction p generalizing acc with
  | nil => simp
  | cons hd t ih =>
    by_cases hf : hd.isFree
    · simp [ObjectSizeCounter.visitHeapObjectHeader, hf, List.filter_cons, ih]
    · simp [ObjectSizeCounter.visitHeapObjectHeader, hf, List.filter_cons, ih]
      omega

theorem foldl_visit_space (sp : HeapSpace) (acc : Nat) :
    sp.foldl
        (fun acc2 page => page.foldl ObjectSizeCounter.visitHeapObjectHeader acc2)
        acc =
      acc + ((sp.flatten.filter (fun h => !h.isFree)).map ObjectSizeCounter.ObjectSize).sum := by
  induction sp generalizing acc with
  | nil => simp
  | cons pg t ih =>
    rw [List.foldl_cons, ih, foldl_visit_page]
    simp [List.filter_append, List.map_append, List.sum_append]
    omega

/-- C10: `ObjectPayloadSize()` returns the sum of the sizes of exactly those
object headers, across every page of every space, that are not marked free;
in particular on a heap whose headers are all free it returns 0. It is a
pure function of the heap, so repeated calls return the same value. -/
theorem object_payload_size_spec (heap : RawHeap) :
    HeapBase.ObjectPayloadSize heap =
      ((heap.flatten.flatten.filter (fun h => !h.isFree)).map
        ObjectSizeCounter.ObjectSize).sum ∧
    ((∀ h ∈ heap.flatten.flatten, h.isFree = true) →
      HeapBase.ObjectPayloadSize heap = 0) := by
  have main : ∀ (hp : RawHeap) (acc : Nat),
      hp.foldl
        (fun acc space =>
          space.foldl
            (fun acc2 page => page.foldl ObjectSizeCounter.visitHeapObjectHeader acc2)
            acc)
        acc =
      acc + ((hp.flatten.flatten.filter (fun h => !h.isFree)).map
        ObjectSizeCounter.ObjectSize).sum := by
    intro hp
    induction hp with
    | nil => simp
    | cons sp t ih =>
      intro acc
      rw [List.foldl_cons, ih, foldl_visit_space]
      simp [List.filter_append, List.map_append, List.sum_append]
      omega
  have hmain : HeapBase.ObjectPayloadSize heap =
      ((heap.flatten.flatten.filter (fun h => !h.isFree)).map
        ObjectSizeCounter.ObjectSize).sum := by
    rw [HeapBase.ObjectPayloadSize, ObjectSizeCounter.GetSize, main]
    omega
  refine ⟨hmain, ?_⟩
  intro hall
  rw [hmain]
  have hnil : heap.flatten.flatten.filter (fun h => !h.isFree) = [] := by
    rw [List.filter_eq_nil_iff]
    intro h hm
    simp [hall h hm]
  rw [hnil]
  simp

/-- C10 witness: a heap with only free headers has payload size 0, and a
heap with live objects of sizes 3, 5 and 7 has payload size 15. -/
theorem object_payload_size_witness :
    ((∀ h ∈ ([[[{ isFree := true, size := 11 }]],
        [[{ isFree := true, size := 4 }], []]] : RawHeap).flatten.flatten,
        h.isFree = true) ∧
      HeapBase.ObjectPayloadSize
        [[[{ isFree := true, size := 11 }]], [[{ isFree := true, size := 4 }], []]] = 0) ∧
    HeapBase.ObjectPayloadSize
        [[[{ isFree := false, size := 3 }, { isFree := true, size := 11 }],
          [{ isFree := false, size := 5 }]], [[{ isFree := false, size := 7 }]]] = 15 :=
  ⟨⟨by decide,
    (object_payload_size_spec _).2 (by decide)⟩,
   by decide⟩
